import Mathlib

/-!
Verification of the obsidian-r2-uploader plugin.

The definitions below are shallow embeddings of the TypeScript source:
`src/r2-uploader.ts`, `src/types.ts`, the current `main.ts` and the
settings tab / folder chooser.  JavaScript strings are modelled as Lean
strings with the JS operations (`startsWith`, `endsWith`, `includes`,
`replace` with a string pattern, `split('.')`, `Array.join`) re-implemented
over the underlying character lists with JS semantics.  Numbers rendered
into template literals (`Date.now()`, `getFullYear()`) are modelled as
naturals rendered in decimal.  Ambient effects (the current year, the
current epoch milliseconds, the outcome of `file.arrayBuffer()` and of the
S3 `send`) are passed explicitly.
-/

namespace R2

/-! ### JavaScript string primitives -/

/-- JS `s.startsWith(p)`. -/
def jsStartsWith (s p : String) : Bool := p.data.isPrefixOf s.data

/-- JS `s.endsWith(p)`. -/
def jsEndsWith (s p : String) : Bool := p.data.isSuffixOf s.data

/-- Substring occurrence test on character lists, used for JS `includes`. -/
def listContainsSub (sub : List Char) : List Char → Bool
  | [] => sub.isEmpty
  | c :: rest => sub.isPrefixOf (c :: rest) || listContainsSub sub rest

/-- JS `s.includes(sub)`. -/
def jsIncludes (s sub : String) : Bool := listContainsSub sub.data s.data

/-- Replace the first occurrence of `pat` by `repl`, on character lists. -/
def replaceFirstAux (pat repl : List Char) : List Char → List Char
  | [] => []
  | c :: rest =>
    if pat.isPrefixOf (c :: rest) then repl ++ (c :: rest).drop pat.length
    else c :: replaceFirstAux pat repl rest

/-- JS `s.replace(pat, repl)` with a string pattern: first occurrence only. -/
def jsReplaceFirst (s pat repl : String) : String :=
  ⟨replaceFirstAux pat.data repl.data s.data⟩

/-- JS `Array.prototype.join(sep)`. -/
def jsJoin (sep : String) : List String → String
  | [] => ""
  | [s] => s
  | s :: rest => s ++ sep ++ jsJoin sep rest

/-- JS `s.split('.')` on the character list. -/
def splitOnDot : List Char → List (List Char)
  | [] => [[]]
  | c :: rest =>
    if c = '.' then [] :: splitOnDot rest
    else
      match splitOnDot rest with
      | [] => [[c]]
      | seg :: segs => (c :: seg) :: segs

/-- Decimal digit character, used to render JS numbers. -/
def digitChar : Nat → Char
  | 0 => '0' | 1 => '1' | 2 => '2' | 3 => '3' | 4 => '4'
  | 5 => '5' | 6 => '6' | 7 => '7' | 8 => '8' | 9 => '9'
  | _ => '*'

/-- Decimal rendering of a natural number, the model of a JS number
interpolated into a template literal. -/
def natToString (n : Nat) : String :=
  if n = 0 then "0" else ⟨((Nat.digits 10 n).map digitChar).reverse⟩

/-! ### Data model, from src/types.ts -/

/-- The `Result` discriminated union from src/types.ts. -/
inductive Result (T : Type) where
  | success (data : T)
  | failure (error : String)
deriving DecidableEq, Repr

/-- Truth of the `success` tag, mirroring `isSuccess` from src/types.ts. -/
def isSuccess {T : Type} : Result T → Bool
  | .success _ => true
  | .failure _ => false

/-- The `R2UploaderSettings` record from src/types.ts. -/
structure R2UploaderSettings where
  endpoint : String
  accessKeyId : String
  secretAccessKey : String
  bucketName : String
  region : String
  customDomain : String
  pathPrefix : String
  useYearSubdirectory : Bool
  enabledFolders : List String
deriving DecidableEq, Repr

/-- The `UploadResult` record from src/types.ts. -/
structure UploadResult where
  url : String
  fileName : String
  timestamp : Nat
deriving DecidableEq, Repr

/-- The `FileInfo` record from src/types.ts (bytes as naturals). -/
structure FileInfo where
  name : String
  type : String
  size : Nat
  content : List Nat
deriving DecidableEq, Repr

/-- A JS error value as observed by `getErrorMessage`: either a `TypeError`
carrying its `message`, or any other thrown value with its string form. -/
inductive JsError where
  | typeError (message : String)
  | other (display : String)
deriving DecidableEq, Repr

/-- JS string interpolation of an error value. -/
def jsErrorToString : JsError → String
  | .typeError m => "TypeError: " ++ m
  | .other s => s

/-! ### src/r2-uploader.ts -/

/-- The list of names of empty required settings fields accumulated by
`validateSettings` in src/r2-uploader.ts (JS falsiness of a string is
emptiness). -/
def missingFields (settings : R2UploaderSettings) : List String :=
  (if settings.endpoint = "" then ["endpoint"] else []) ++
  (if settings.accessKeyId = "" then ["accessKeyId"] else []) ++
  (if settings.secretAccessKey = "" then ["secretAccessKey"] else []) ++
  (if settings.bucketName = "" then ["bucketName"] else [])

/-- Embeds `validateSettings` from src/r2-uploader.ts. -/
def validateSettings (settings : R2UploaderSettings) : Result R2UploaderSettings :=
  if (missingFields settings).length > 0 then
    .failure ("Missing required settings: " ++ jsJoin ", " (missingFields settings))
  else .success settings

/-- Embeds `generateFileKey` from src/r2-uploader.ts; the current year is an
explicit parameter. -/
def generateFileKey (year : Nat) (pathPrefix fileName : String)
    (useYearSubdirectory : Bool) : String :=
  let normalizedPrefix := if jsEndsWith pathPrefix "/" then pathPrefix else pathPrefix ++ "/"
  let subdirectory := if useYearSubdirectory then natToString year ++ "/" else ""
  normalizedPrefix ++ subdirectory ++ fileName

/-- Embeds `createUrl` from src/r2-uploader.ts: `customDomain ||` falls through on
the empty string, and `.replace('https://', '')` drops only the first
occurrence of the literal `https://`. -/
def createUrl (settings : R2UploaderSettings) (key : String) : String :=
  let baseUrl :=
    if settings.customDomain = "" then
      "https://" ++ settings.bucketName ++ "." ++ jsReplaceFirst settings.endpoint "https://" ""
    else settings.customDomain
  baseUrl ++ "/" ++ key

/-- The dedicated CORS remediation message from `getErrorMessage`. -/
def corsErrorMessage : String :=
  "Upload failed: CORS error. Please add \"app://obsidian.md\" to AllowedOrigins in your R2 bucket CORS policy."

/-- The classification test of `getErrorMessage`: a `TypeError` whose
message contains the fetch failure text. -/
def isCorsSignature : JsError → Bool
  | .typeError m => jsIncludes m "Failed to fetch"
  | .other _ => false

/-- Embeds `getErrorMessage` from src/r2-uploader.ts. -/
def getErrorMessage (error : JsError) : String :=
  if isCorsSignature error then corsErrorMessage
  else "Upload failed: " ++ jsErrorToString error

/-- Embeds `fileToFileInfo` from src/r2-uploader.ts, over the explicit outcome of
`file.arrayBuffer()`. -/
def fileToFileInfo (read : Except JsError FileInfo) : Result FileInfo :=
  match read with
  | .ok fi => .success fi
  | .error e => .failure ("Failed to read file: " ++ jsErrorToString e)

/-- The ambient effects consumed by one `uploadFile` call. -/
structure UploadEnv where
  read : Except JsError FileInfo
  send : Except JsError Unit
  year : Nat
  now : Nat
deriving Repr

/-- Embeds `uploadFile` from src/r2-uploader.ts.  The second component counts the
outbound PUT requests issued (0 or 1). -/
def uploadFile (settings : R2UploaderSettings) (env : UploadEnv)
    (fileName : String) : Result UploadResult × Nat :=
  match validateSettings settings with
  | .failure e => (.failure e, 0)
  | .success _ =>
    match fileToFileInfo env.read with
    | .failure e => (.failure e, 0)
    | .success _fi =>
      let key := generateFileKey env.year settings.pathPrefix fileName
        settings.useYearSubdirectory
      match env.send with
      | .error e => (.failure (getErrorMessage e), 1)
      | .ok _ => (.success ⟨createUrl settings key, fileName, env.now⟩, 1)

/-- Embeds `generateUniqueFileName` from src/r2-uploader.ts: `Date.now()` is the
explicit parameter `now`; `split('.').at(-1)` is the last split segment. -/
def generateUniqueFileName (now : Nat) (originalName : String) : String :=
  natToString now ++ "." ++ ⟨(splitOnDot originalName.data).getLastD []⟩

/-! ### main.ts (current version) -/

/-- Embeds `getCurrentFilePath` from main.ts: `activeFile?.path ?? ''`. -/
def getCurrentFilePath (activeFilePath : Option String) : String :=
  activeFilePath.getD ""

/-- Embeds `isInEnabledFolder` from main.ts: JS `!filePath` is emptiness. -/
def isInEnabledFolder (filePath : String) (enabledFolders : List String) : Bool :=
  if filePath = "" then false
  else if enabledFolders.length = 0 then true
  else enabledFolders.any fun folder =>
    jsStartsWith filePath (folder ++ "/") || decide (filePath = folder)

/-- The `hasRequiredSettings` truthiness conjunction in `validateConditions`:
all four required string fields are truthy, i.e. non-empty. -/
def hasRequiredSettings (settings : R2UploaderSettings) : Bool :=
  !decide (settings.endpoint = "") && !decide (settings.accessKeyId = "") &&
  !decide (settings.secretAccessKey = "") && !decide (settings.bucketName = "")

/-- Modelled from the spec: the `sanitize-filename` dependency (its source is
not under src/), described as replacing every character illegal in a file
path by the replacement character.  The characters it replaces are the
filesystem-illegal ones and control characters; notably it leaves `]` and
`(` untouched. -/
def isFsIllegalChar (c : Char) : Bool :=
  c = '/' || c = '\\' || c = '?' || c = '<' || c = '>' || c = ':' ||
  c = '*' || c = '|' || c = '\"' || c.toNat ≤ 31 ||
  (128 ≤ c.toNat && c.toNat ≤ 159)

/-- Modelled from the spec: `sanitize(name, { replacement: '_' })`. -/
def sanitizeFileName (name : String) : String :=
  ⟨name.data.map fun c => if isFsIllegalChar c then '_' else c⟩

/-- Embeds `validateConditions` from main.ts, returning the gate outcome and the
notices it shows. -/
def validateConditions (filePath : String) (settings : R2UploaderSettings) :
    Bool × List String :=
  if settings.enabledFolders.length > 0 ∧
      isInEnabledFolder filePath settings.enabledFolders = false then
    (false, ["Current folder is not enabled for uploads"])
  else if hasRequiredSettings settings = false then
    (false, ["R2 uploader settings are incomplete. Please check the plugin settings."])
  else (true, [])

/-- A file captured from a drop or paste event, carrying the outcomes of
its `arrayBuffer()` read and of the PUT that would send it. -/
structure JsFile where
  name : String
  type : String
  read : Except JsError FileInfo
  send : Except JsError Unit
deriving Repr

/-- Embeds `processFiles` from main.ts, keeping each upload's PUT count. -/
def processFilesFull (settings : R2UploaderSettings) (year now : Nat)
    (files : List JsFile) : List (Result UploadResult × Nat) :=
  files.map fun f =>
    uploadFile settings ⟨f.read, f.send, year, now⟩ (generateUniqueFileName now f.name)

/-- Embeds `processFiles` from main.ts: the `Promise.all` of the per-file uploads. -/
def processFiles (settings : R2UploaderSettings) (year now : Nat)
    (files : List JsFile) : List (Result UploadResult) :=
  (processFilesFull settings year now files).map Prod.fst

/-- Number of outbound PUT requests a batch performs. -/
def networkCallCount (settings : R2UploaderSettings) (year now : Nat)
    (files : List JsFile) : Nat :=
  ((processFilesFull settings year now files).map Prod.snd).sum

/-- The `FileProcessResult` record from main.ts. -/
structure FileProcessResult where
  originalName : String
  result : Result UploadResult
deriving DecidableEq, Repr

/-- The `MarkdownLink` record from main.ts. -/
structure MarkdownLink where
  displayName : String
  url : String
deriving DecidableEq, Repr

/-- The markdown image tag built in `insertMarkdownLinks`. -/
def mkMarkdownLink (displayName url : String) : String :=
  "![" ++ displayName ++ "](" ++ url ++ ")"

/-- An editor position, as used by `getCursor` / `replaceRange`. -/
structure EditorPosition where
  line : Nat
  ch : Nat
deriving DecidableEq, Repr

/-- One `replaceRange` call: the inserted text and its position. -/
structure Insertion where
  text : String
  pos : EditorPosition
deriving DecidableEq, Repr

/-- Embeds `insertMarkdownLinks` from main.ts: each insertion happens at the
running position, which then advances by the inserted link's length on the
same line. -/
def insertMarkdownLinks (cursor : EditorPosition) :
    List MarkdownLink → List Insertion
  | [] => []
  | link :: rest =>
    let text := mkMarkdownLink link.displayName link.url
    ⟨text, cursor⟩ :: insertMarkdownLinks ⟨cursor.line, cursor.ch + text.length⟩ rest

/-- The `processResults` list built in `processImages`. -/
def imageProcessResults (settings : R2UploaderSettings) (year now : Nat)
    (files : List JsFile) : List FileProcessResult :=
  List.zipWith (fun f r => ⟨f.name, r⟩) files (processFiles settings year now files)

/-- The links handed to `insertMarkdownLinks` by `processImages`: the
succeeded outcomes, in input order, with sanitized display names. -/
def successLinks (processResults : List FileProcessResult) : List MarkdownLink :=
  (processResults.filter fun pr => isSuccess pr.result).map fun pr =>
    ⟨sanitizeFileName pr.originalName,
      match pr.result with
      | .success d => d.url
      | .failure _ => ""⟩

/-- Embeds `showProcessResults` from main.ts: the notices, one per file. -/
def showProcessResults (processResults : List FileProcessResult) : List String :=
  processResults.map fun pr =>
    match pr.result with
    | .success _ => "Successfully uploaded " ++ sanitizeFileName pr.originalName
    | .failure e => "Failed to upload " ++ sanitizeFileName pr.originalName ++ ": " ++ e

/-- Embeds `processImages` from main.ts: insertions and notices of one batch. -/
def processImages (settings : R2UploaderSettings) (year now : Nat)
    (cursor : EditorPosition) (files : List JsFile) :
    List Insertion × List String :=
  let processResults := imageProcessResults settings year now files
  (insertMarkdownLinks cursor (successLinks processResults),
    showProcessResults processResults)

/-- What one drop event produces. -/
structure HandlerOutcome where
  insertions : List Insertion
  notices : List String
  networkCalls : Nat
deriving DecidableEq, Repr

/-- Embeds `handleDrop` from main.ts: active-view guard, precondition gate, image
filter, then the pipeline. -/
def handleDrop (settings : R2UploaderSettings) (hasActiveView : Bool)
    (activeFilePath : Option String) (year now : Nat)
    (cursor : EditorPosition) (droppedFiles : List JsFile) : HandlerOutcome :=
  if hasActiveView = false then ⟨[], [], 0⟩
  else
    match validateConditions (getCurrentFilePath activeFilePath) settings with
    | (false, notices) => ⟨[], notices, 0⟩
    | (true, _) =>
      let imageFiles := droppedFiles.filter fun f => jsStartsWith f.type "image/"
      if imageFiles.length = 0 then ⟨[], [], 0⟩
      else
        let out := processImages settings year now cursor imageFiles
        ⟨out.1, out.2, networkCallCount settings year now imageFiles⟩

/-- Embeds `FolderSuggestModal.onChooseItem` from settings-tab.ts: choosing the
vault root `/` stores the empty string. -/
def onChooseItemPath (folderPath : String) : String :=
  if folderPath = "/" then "" else folderPath

/-! ### Spec-reading definitions, for refutations

Each definition in this section follows the words of a spec sentence (not
the code) and is compared against the corresponding source function. -/

/-- The claim's reading of URL building: the endpoint's scheme prefix
(`https://` or `http://`) is stripped, regardless of which scheme it is. -/
def stripSchemeSpec (endpoint : String) : String :=
  if jsStartsWith endpoint "https://" then ⟨endpoint.data.drop 8⟩
  else if jsStartsWith endpoint "http://" then ⟨endpoint.data.drop 7⟩
  else endpoint

/-- The claim's reading of `createUrl`. -/
def createUrlSpec (settings : R2UploaderSettings) (key : String) : String :=
  if settings.customDomain = "" then
    "https://" ++ settings.bucketName ++ "." ++ stripSchemeSpec settings.endpoint ++ "/" ++ key
  else settings.customDomain ++ "/" ++ key

/-- The claim's reading of prefix normalization: the result ends in exactly
one separator, so trailing separators are collapsed to one. -/
def normalizeToOneSeparator (p : String) : String :=
  ⟨(p.data.reverse.dropWhile fun c => c = '/').reverse⟩ ++ "/"

/-- The claim's reading of `generateFileKey`. -/
def generateFileKeySpec (year : Nat) (pathPrefix fileName : String)
    (useYearSubdirectory : Bool) : String :=
  normalizeToOneSeparator pathPrefix ++
    (if useYearSubdirectory then natToString year ++ "/" else "") ++ fileName

/-- The claim's reading of the folder gate for a non-empty allow-list:
the path starts with a listed folder plus separator, or equals one. -/
def folderPermitsSpec (filePath : String) (enabledFolders : List String) : Bool :=
  enabledFolders.any fun folder =>
    jsStartsWith filePath (folder ++ "/") || decide (filePath = folder)

/-- Characters of the alt text of a markdown image tag: everything up to
the first occurrence of the two-character sequence close-bracket,
open-paren. -/
def takeUntilCloseOpen : List Char → List Char
  | [] => []
  | [c] => [c]
  | c :: d :: rest =>
    if c = ']' ∧ d = '(' then []
    else c :: takeUntilCloseOpen (d :: rest)

/-- Whether the two-character sequence close-bracket, open-paren occurs. -/
def hasCloseOpen : List Char → Bool
  | [] => false
  | [_] => false
  | c :: d :: rest => (c = ']' ∧ d = '(' : Bool) || hasCloseOpen (d :: rest)

/-- Markdown image alt-text parser: the text a markdown reader recovers as
the display name of `![alt](url)`. -/
def parseAltText (link : String) : Option String :=
  match link.data with
  | '!' :: '[' :: rest => some ⟨takeUntilCloseOpen rest⟩
  | _ => none

/-! ### Helper lemmas -/

theorem digitChar_toNat {d : Nat} (hd : d < 10) : (digitChar d).toNat = 48 + d := by
  interval_cases d <;> rfl

theorem digitChar_ne_dot {d : Nat} (hd : d < 10) : digitChar d ≠ '.' := by
  intro h
  have h1 := digitChar_toNat hd
  rw [h] at h1
  have h2 : ('.').toNat = 46 := rfl
  omega

theorem map_digitChar_inj : ∀ {l₁ l₂ : List Nat}, (∀ d ∈ l₁, d < 10) →
    (∀ d ∈ l₂, d < 10) → l₁.map digitChar = l₂.map digitChar → l₁ = l₂ := by
  intro l₁
  induction l₁ with
  | nil =>
    intro l₂ _ _ h
    cases l₂ with
    | nil => rfl
    | cons b t => simp at h
  | cons a t ih =>
    intro l₂ h₁ h₂ h
    cases l₂ with
    | nil => simp at h
    | cons b t₂ =>
      simp only [List.map_cons, List.cons.injEq] at h
      have ha : a < 10 := h₁ a (by simp)
      have hb : b < 10 := h₂ b (by simp)
      have hab : a = b := by
        have := digitChar_toNat ha
        have := digitChar_toNat hb
        have := congrArg Char.toNat h.1
        omega
      have ht : t = t₂ :=
        ih (fun d hd => h₁ d (by simp [hd])) (fun d hd => h₂ d (by simp [hd])) h.2
      rw [hab, ht]

theorem natToString_data_of_pos {n : Nat} (hn : n ≠ 0) :
    (natToString n).data = ((Nat.digits 10 n).map digitChar).reverse := by
  rw [natToString, if_neg hn]

theorem natToString_no_dot (n : Nat) : ∀ c ∈ (natToString n).data, c ≠ '.' := by
  intro c hc
  by_cases hn : n = 0
  · subst hn
    have h0 : (natToString 0).data = ['0'] := rfl
    rw [h0] at hc
    have hc0 : c = '0' := by simpa using hc
    rw [hc0]
    decide
  · rw [natToString_data_of_pos hn, List.mem_reverse, List.mem_map] at hc
    obtain ⟨d, hd, hdc⟩ := hc
    rw [← hdc]
    exact digitChar_ne_dot (Nat.digits_lt_base (by norm_num) hd)

theorem natToString_data_ne_singleton_zero {m : Nat} (hm : m ≠ 0) :
    (natToString m).data ≠ ['0'] := by
  intro hdata
  rw [natToString_data_of_pos hm] at hdata
  have hrev : (Nat.digits 10 m).map digitChar = ['0'] := by
    apply List.reverse_injective
    rw [hdata]
    rfl
  have hlen : (Nat.digits 10 m).length = 1 := by
    have := congrArg List.length hrev
    simpa using this
  obtain ⟨d, hd⟩ := List.length_eq_one.mp hlen
  rw [hd] at hrev
  simp only [List.map_cons, List.map_nil, List.cons.injEq] at hrev
  have hd10 : d < 10 := Nat.digits_lt_base (by norm_num) (by rw [hd]; simp)
  have hd0 : d = 0 := by
    have h1 := digitChar_toNat hd10
    have h2 := congrArg Char.toNat hrev.1
    rw [h1] at h2
    have h3 : ('0').toNat = 48 := rfl
    omega
  have hof : m = Nat.ofDigits 10 (Nat.digits 10 m) := (Nat.ofDigits_digits 10 m).symm
  rw [hd, hd0] at hof
  simp [Nat.ofDigits] at hof
  exact hm hof

theorem natToString_inj {n m : Nat} (h : natToString n = natToString m) : n = m := by
  have hdata : (natToString n).data = (natToString m).data := by rw [h]
  by_cases hn : n = 0 <;> by_cases hm : m = 0
  · rw [hn, hm]
  · exfalso
    subst hn
    exact natToString_data_ne_singleton_zero hm (by rw [← hdata]; rfl)
  · exfalso
    subst hm
    exact natToString_data_ne_singleton_zero hn (by rw [hdata]; rfl)
  · rw [natToString_data_of_pos hn, natToString_data_of_pos hm] at hdata
    have hmap := List.reverse_injective hdata
    have hdig := map_digitChar_inj
      (fun d hd => Nat.digits_lt_base (by norm_num) hd)
      (fun d hd => Nat.digits_lt_base (by norm_num) hd) hmap
    calc n = Nat.ofDigits 10 (Nat.digits 10 n) := (Nat.ofDigits_digits 10 n).symm
    _ = Nat.ofDigits 10 (Nat.digits 10 m) := by rw [hdig]
    _ = m := Nat.ofDigits_digits 10 m

theorem natToString_2022 : natToString 2022 = "2022" := by
  have h : Nat.digits 10 2022 = [2, 2, 0, 2] := by norm_num
  rw [natToString, if_neg (by norm_num), h]
  rfl

theorem listContainsSub_self : ∀ l : List Char, listContainsSub l l = true := by
  intro l
  cases l with
  | nil => rfl
  | cons c rest =>
    simp only [listContainsSub]
    have hp : (c :: rest).isPrefixOf (c :: rest) = true :=
      List.isPrefixOf_iff_prefix.mpr (List.prefix_refl _)
    rw [hp]
    rfl

theorem listContainsSub_append_right (l₁ l₂ : List Char) :
    listContainsSub l₂ (l₁ ++ l₂) = true := by
  induction l₁ with
  | nil => simpa using listContainsSub_self l₂
  | cons c rest ih =>
    have hstep : listContainsSub l₂ ((c :: rest) ++ l₂) =
        (l₂.isPrefixOf ((c :: rest) ++ l₂) || listContainsSub l₂ (rest ++ l₂)) := rfl
    rw [hstep, ih, Bool.or_true]

theorem jsIncludes_append_right (a b : String) : jsIncludes (a ++ b) b = true := by
  show listContainsSub b.data (a ++ b).data = true
  rw [String.data_append]
  exact listContainsSub_append_right a.data b.data

theorem replaceFirstAux_of_front (pat rest : List Char) (h : pat ≠ []) :
    replaceFirstAux pat [] (pat ++ rest) = rest := by
  cases pat with
  | nil => exact absurd rfl h
  | cons p pt =>
    have hpre : (p :: pt).isPrefixOf ((p :: pt) ++ rest) = true := by
      apply List.isPrefixOf_iff_prefix.mpr
      exact List.prefix_append _ _
    have hstep : replaceFirstAux (p :: pt) [] ((p :: pt) ++ rest) =
        if (p :: pt).isPrefixOf ((p :: pt) ++ rest) then
          [] ++ List.drop (p :: pt).length ((p :: pt) ++ rest)
        else p :: replaceFirstAux (p :: pt) [] (pt ++ rest) := rfl
    rw [hstep, if_pos hpre, List.nil_append, List.drop_left]

theorem jsReplaceFirst_strips_front (host : String) :
    jsReplaceFirst ("https://" ++ host) "https://" "" = host := by
  apply String.ext
  show replaceFirstAux ("https://").data [] (("https://" ++ host)).data = host.data
  rw [String.data_append]
  exact replaceFirstAux_of_front _ _ (by decide)

theorem splitOnDot_ne_nil : ∀ l : List Char, splitOnDot l ≠ [] := by
  intro l
  cases l with
  | nil => simp [splitOnDot]
  | cons c rest =>
    simp only [splitOnDot]
    by_cases hc : c = '.'
    · simp [hc]
    · simp only [if_neg hc]
      cases h : splitOnDot rest with
      | nil => simp
      | cons seg segs => simp

theorem splitOnDot_no_dot : ∀ {l : List Char}, (∀ c ∈ l, c ≠ '.') → splitOnDot l = [l] := by
  intro l
  induction l with
  | nil => intro _; rfl
  | cons c rest ih =>
    intro h
    have hc : c ≠ '.' := h c (by simp)
    have hrest := ih fun d hd => h d (by simp [hd])
    simp only [splitOnDot, if_neg hc, hrest]

theorem splitOnDot_length_ge_two : ∀ {l : List Char}, '.' ∈ l →
    2 ≤ (splitOnDot l).length := by
  intro l
  induction l with
  | nil => intro h; cases h
  | cons c rest ih =>
    intro h
    by_cases hc : c = '.'
    · simp only [splitOnDot, if_pos hc, List.length_cons]
      have h1 : 1 ≤ (splitOnDot rest).length :=
        List.length_pos.mpr (splitOnDot_ne_nil rest)
      omega
    · have hrest : '.' ∈ rest := by
        rcases List.mem_cons.mp h with h' | h'
        · exact absurd h'.symm hc
        · exact h'
      have h2 := ih hrest
      simp only [splitOnDot, if_neg hc]
      cases hs : splitOnDot rest with
      | nil => exact absurd hs (splitOnDot_ne_nil rest)
      | cons seg segs =>
        rw [hs] at h2
        simp only [List.length_cons] at h2 ⊢
        omega

theorem getLastD_cons_irrel {α : Type} (c : α) (rest : List α) (a b : α) :
    (c :: rest).getLastD a = (c :: rest).getLastD b := by
  rw [List.getLastD_cons, List.getLastD_cons]

theorem splitOnDot_getLastD_append (l₁ l₂ : List Char) :
    (splitOnDot (l₁ ++ '.' :: l₂)).getLastD [] = (splitOnDot l₂).getLastD [] := by
  induction l₁ with
  | nil =>
    rw [List.nil_append]
    have hstep : splitOnDot ('.' :: l₂) = [] :: splitOnDot l₂ := by
      simp [splitOnDot]
    rw [hstep, List.getLastD_cons]
  | cons c rest ih =>
    by_cases hc : c = '.'
    · subst hc
      rw [List.cons_append]
      have hstep : splitOnDot ('.' :: (rest ++ '.' :: l₂)) =
          [] :: splitOnDot (rest ++ '.' :: l₂) := by
        simp [splitOnDot]
      rw [hstep, List.getLastD_cons]
      exact ih
    · rw [List.cons_append]
      cases hs : splitOnDot (rest ++ '.' :: l₂) with
      | nil => exact absurd hs (splitOnDot_ne_nil _)
      | cons seg segs =>
        have hstep : splitOnDot (c :: (rest ++ '.' :: l₂)) = (c :: seg) :: segs := by
          simp [splitOnDot, if_neg hc, hs]
        rw [hstep, List.getLastD_cons]
        have hmem : '.' ∈ rest ++ '.' :: l₂ := by simp
        have hlen := splitOnDot_length_ge_two hmem
        rw [hs] at hlen
        cases segs with
        | nil => simp at hlen
        | cons s2 t2 =>
          rw [getLastD_cons_irrel s2 t2 (c :: seg) []]
          rw [hs] at ih
          rw [List.getLastD_cons] at ih
          rw [getLastD_cons_irrel s2 t2 seg []] at ih
          exact ih

theorem append_dot_inj : ∀ (l₁ : List Char), ∀ {l₂ t₁ t₂ : List Char},
    (∀ c ∈ l₁, c ≠ '.') → (∀ c ∈ l₂, c ≠ '.') →
    l₁ ++ '.' :: t₁ = l₂ ++ '.' :: t₂ → l₁ = l₂ ∧ t₁ = t₂ := by
  intro l₁
  induction l₁ with
  | nil =>
    intro l₂ t₁ t₂ _ h₂ heq
    cases l₂ with
    | nil => simpa using heq
    | cons d l₂' =>
      simp only [List.nil_append, List.cons_append, List.cons.injEq] at heq
      exact absurd heq.1.symm (h₂ d (by simp))
  | cons c l₁' ih =>
    intro l₂ t₁ t₂ h₁ h₂ heq
    cases l₂ with
    | nil =>
      simp only [List.cons_append, List.nil_append, List.cons.injEq] at heq
      exact absurd heq.1 (h₁ c (by simp))
    | cons d l₂' =>
      simp only [List.cons_append, List.cons.injEq] at heq
      obtain ⟨hcd, hrest⟩ := heq
      obtain ⟨hl, ht⟩ := ih (fun x hx => h₁ x (by simp [hx]))
        (fun x hx => h₂ x (by simp [hx])) hrest
      exact ⟨by rw [hcd, hl], ht⟩

theorem takeUntilCloseOpen_append : ∀ (l t : List Char), hasCloseOpen l = false →
    takeUntilCloseOpen (l ++ ']' :: '(' :: t) = l := by
  intro l
  induction l with
  | nil =>
    intro t _
    simp [takeUntilCloseOpen]
  | cons c rest ih =>
    intro t h
    cases rest with
    | nil => simp [takeUntilCloseOpen]
    | cons d rest' =>
      simp only [hasCloseOpen, Bool.or_eq_false_iff, decide_eq_false_iff_not] at h
      have hstep := ih t h.2
      simp only [List.cons_append] at hstep ⊢
      simp only [takeUntilCloseOpen, if_neg h.1]
      rw [hstep]

/-- Length of the markdown tag a link produces. -/
def linkTextLen (link : MarkdownLink) : Nat :=
  (mkMarkdownLink link.displayName link.url).length

theorem insertMarkdownLinks_length (links : List MarkdownLink) :
    ∀ cursor, (insertMarkdownLinks cursor links).length = links.length := by
  induction links with
  | nil => intro cursor; rfl
  | cons l rest ih =>
    intro cursor
    simp only [insertMarkdownLinks, List.length_cons, ih]

theorem insertMarkdownLinks_getElem (links : List MarkdownLink) :
    ∀ (cursor : EditorPosition) (i : Nat)
      (h1 : i < (insertMarkdownLinks cursor links).length) (h2 : i < links.length),
    (insertMarkdownLinks cursor links)[i] =
      ⟨mkMarkdownLink (links[i]).displayName (links[i]).url,
        ⟨cursor.line, cursor.ch + ((links.take i).map linkTextLen).sum⟩⟩ := by
  induction links with
  | nil =>
    intro cursor i h1 h2
    exact absurd h2 (Nat.not_lt_zero i)
  | cons l rest ih =>
    intro cursor i h1 h2
    have hunf : insertMarkdownLinks cursor (l :: rest) =
        ⟨mkMarkdownLink l.displayName l.url, cursor⟩ ::
          insertMarkdownLinks
            ⟨cursor.line, cursor.ch + (mkMarkdownLink l.displayName l.url).length⟩ rest := rfl
    cases i with
    | zero =>
      simp [hunf]
    | succ j =>
      have h2' : j < rest.length := by
        simp only [List.length_cons] at h2
        omega
      have h1' : j < (insertMarkdownLinks
          ⟨cursor.line, cursor.ch + (mkMarkdownLink l.displayName l.url).length⟩ rest).length := by
        rw [insertMarkdownLinks_length]
        exact h2'
      simp only [hunf, List.getElem_cons_succ]
      rw [ih _ j h1' h2']
      simp only [List.getElem_cons_succ, List.take_succ_cons, List.map_cons, List.sum_cons,
        Insertion.mk.injEq, EditorPosition.mk.injEq, linkTextLen]
      exact ⟨trivial, trivial, by omega⟩

theorem jsEndsWith_append_self (p s : String) : jsEndsWith (p ++ s) s = true := by
  show (s.data).isSuffixOf ((p ++ s).data) = true
  rw [String.data_append]
  exact List.isSuffixOf_iff_suffix.mpr (List.suffix_append _ _)

theorem validateSettings_failure {settings : R2UploaderSettings}
    (h : missingFields settings ≠ []) :
    validateSettings settings =
      .failure ("Missing required settings: " ++ jsJoin ", " (missingFields settings)) := by
  rw [validateSettings, if_pos (List.length_pos.mpr h)]

theorem validateSettings_success {settings : R2UploaderSettings}
    (h : missingFields settings = []) :
    validateSettings settings = .success settings := by
  rw [validateSettings, if_neg (by simp [h])]

theorem uploadFile_validation_failure {settings : R2UploaderSettings}
    (env : UploadEnv) (fileName : String) (h : missingFields settings ≠ []) :
    uploadFile settings env fileName =
      (.failure ("Missing required settings: " ++ jsJoin ", " (missingFields settings)), 0) := by
  simp only [uploadFile, validateSettings_failure h]

theorem uploadFile_read_failure {settings : R2UploaderSettings}
    {env : UploadEnv} (fileName : String) (h : missingFields settings = [])
    {e : JsError} (hr : env.read = .error e) :
    uploadFile settings env fileName =
      (.failure ("Failed to read file: " ++ jsErrorToString e), 0) := by
  simp only [uploadFile, validateSettings_success h, fileToFileInfo, hr]

theorem uploadFile_send_failure {settings : R2UploaderSettings}
    {env : UploadEnv} (fileName : String) (h : missingFields settings = [])
    {fi : FileInfo} (hr : env.read = .ok fi) {e : JsError} (hs : env.send = .error e) :
    uploadFile settings env fileName = (.failure (getErrorMessage e), 1) := by
  simp only [uploadFile, validateSettings_success h, fileToFileInfo, hr, hs]

theorem uploadFile_success {settings : R2UploaderSettings}
    {env : UploadEnv} (fileName : String) (h : missingFields settings = [])
    {fi : FileInfo} (hr : env.read = .ok fi) (hs : env.send = .ok ()) :
    uploadFile settings env fileName =
      (.success ⟨createUrl settings (generateFileKey env.year settings.pathPrefix fileName
        settings.useYearSubdirectory), fileName, env.now⟩, 1) := by
  simp only [uploadFile, validateSettings_success h, fileToFileInfo, hr, hs]

theorem missingFields_eq_nil {s : R2UploaderSettings} (h1 : s.endpoint ≠ "")
    (h2 : s.accessKeyId ≠ "") (h3 : s.secretAccessKey ≠ "") (h4 : s.bucketName ≠ "") :
    missingFields s = [] := by
  simp [missingFields, h1, h2, h3, h4]

theorem mem_zipWith_name : ∀ {files : List JsFile}
    {results : List (Result UploadResult)} {pr : FileProcessResult},
    pr ∈ List.zipWith (fun f r => FileProcessResult.mk f.name r) files results →
    ∃ f ∈ files, pr.originalName = f.name := by
  intro files
  induction files with
  | nil =>
    intro results pr h
    simp at h
  | cons f fs ih =>
    intro results pr h
    cases results with
    | nil => simp at h
    | cons r rs =>
      rw [List.zipWith_cons_cons] at h
      rcases List.mem_cons.mp h with h' | h'
      · exact ⟨f, by simp, by rw [h']⟩
      · obtain ⟨g, hg, hname⟩ := ih h'
        exact ⟨g, by simp [hg], hname⟩

/-! ### Claim theorems -/

/-- Claim C1, counterexample: for the endpoint `http://example.com` with an
empty custom domain, `createUrl` keeps the `http://` scheme inside the
host position instead of stripping it, so the claimed
`https://bucket.endpoint-without-scheme/key` shape is wrong for http
endpoints. -/
theorem claim_C1_counterexample :
    createUrl ⟨"http://example.com", "k1", "k2", "mybucket", "auto", "", "images/", true, []⟩
        "images/k.png" = "https://mybucket.http://example.com/images/k.png" ∧
    createUrlSpec ⟨"http://example.com", "k1", "k2", "mybucket", "auto", "", "images/", true, []⟩
        "images/k.png" = "https://mybucket.example.com/images/k.png" ∧
    createUrl ⟨"http://example.com", "k1", "k2", "mybucket", "auto", "", "images/", true, []⟩
        "images/k.png" ≠
      createUrlSpec ⟨"http://example.com", "k1", "k2", "mybucket", "auto", "", "images/", true, []⟩
        "images/k.png" := by
  refine ⟨?_, ?_, ?_⟩ <;> decide

/-- Claim C1, amended: with a non-empty customDomain `createUrl` returns
`domain/key` ignoring bucket and endpoint; with an empty customDomain it
returns `https://bucket.E/key` where `E` is the endpoint with only the
first occurrence of the literal `https://` removed — in particular the
scheme is stripped for `https://` endpoints, while endpoints of any other
scheme (e.g. `http://`) are used verbatim. -/
theorem claim_C1 (settings : R2UploaderSettings) (key : String) :
    (settings.customDomain ≠ "" →
      createUrl settings key = settings.customDomain ++ "/" ++ key) ∧
    (settings.customDomain = "" →
      createUrl settings key =
        "https://" ++ settings.bucketName ++ "." ++
          jsReplaceFirst settings.endpoint "https://" "" ++ "/" ++ key) ∧
    (∀ host, settings.customDomain = "" → settings.endpoint = "https://" ++ host →
      createUrl settings key =
        "https://" ++ settings.bucketName ++ "." ++ host ++ "/" ++ key) := by
  refine ⟨?_, ?_, ?_⟩
  · intro h
    simp [createUrl, h]
  · intro h
    simp [createUrl, h]
  · intro host h he
    simp [createUrl, h, he, jsReplaceFirst_strips_front]

/-- Claim C1, witness: concrete evaluations through the amended theorem. -/
theorem claim_C1_witness :
    createUrl ⟨"https://example.com", "a", "b", "mybucket", "auto", "", "images/", true, []⟩
        "images/k.png" = "https://mybucket.example.com/images/k.png" ∧
    createUrl ⟨"https://example.com", "a", "b", "mybucket", "auto", "https://cdn.example.com",
        "images/", true, []⟩ "images/k.png" = "https://cdn.example.com/images/k.png" := by
  constructor
  · have h := (claim_C1 ⟨"https://example.com", "a", "b", "mybucket", "auto", "", "images/",
      true, []⟩ "images/k.png").2.2 "example.com" rfl rfl
    simpa using h
  · have h := (claim_C1 ⟨"https://example.com", "a", "b", "mybucket", "auto",
      "https://cdn.example.com", "images/", true, []⟩ "images/k.png").1 (by decide)
    simpa using h

/-- Claim C2: whenever any of the four required settings fields is empty,
`uploadFile` fails without issuing any PUT, and its message names exactly
the empty fields: a field's name occurs in the message iff that field is
empty. -/
theorem claim_C2 (settings : R2UploaderSettings) (env : UploadEnv) (fileName : String)
    (h : settings.endpoint = "" ∨ settings.accessKeyId = "" ∨
      settings.secretAccessKey = "" ∨ settings.bucketName = "") :
    (uploadFile settings env fileName).2 = 0 ∧
    ∃ msg, (uploadFile settings env fileName).1 = Result.failure msg ∧
      (jsIncludes msg "endpoint" = true ↔ settings.endpoint = "") ∧
      (jsIncludes msg "accessKeyId" = true ↔ settings.accessKeyId = "") ∧
      (jsIncludes msg "secretAccessKey" = true ↔ settings.secretAccessKey = "") ∧
      (jsIncludes msg "bucketName" = true ↔ settings.bucketName = "") := by
  have hne : missingFields settings ≠ [] := by
    intro hnil
    rcases h with h' | h' | h' | h' <;>
      · rw [missingFields] at hnil
        simp only [h', if_pos rfl] at hnil
        simp [List.append_eq_nil] at hnil
  rw [uploadFile_validation_failure env fileName hne]
  refine ⟨rfl, "Missing required settings: " ++ jsJoin ", " (missingFields settings), rfl, ?_⟩
  by_cases h1 : settings.endpoint = "" <;> by_cases h2 : settings.accessKeyId = "" <;>
    by_cases h3 : settings.secretAccessKey = "" <;> by_cases h4 : settings.bucketName = "" <;>
    simp only [missingFields, h1, h2, h3, h4, if_pos rfl, if_neg, if_true, if_false,
      List.append_nil, List.nil_append, List.append_assoc] <;>
    simp [h1, h2, h3, h4] <;> decide

/-- Claim C2, witness: a settings record with empty endpoint and secret key. -/
theorem claim_C2_witness :
    (uploadFile ⟨"", "id", "", "bkt", "auto", "", "images/", true, []⟩
      ⟨Except.ok ⟨"f.png", "image/png", 3, [1, 2, 3]⟩, Except.ok (), 2024, 99⟩ "f").2 = 0 ∧
    ∃ msg, (uploadFile ⟨"", "id", "", "bkt", "auto", "", "images/", true, []⟩
        ⟨Except.ok ⟨"f.png", "image/png", 3, [1, 2, 3]⟩, Except.ok (), 2024, 99⟩ "f").1 =
          Result.failure msg ∧
      (jsIncludes msg "endpoint" = true ↔
        (⟨"", "id", "", "bkt", "auto", "", "images/", true, []⟩ :
          R2UploaderSettings).endpoint = "") ∧
      (jsIncludes msg "accessKeyId" = true ↔
        (⟨"", "id", "", "bkt", "auto", "", "images/", true, []⟩ :
          R2UploaderSettings).accessKeyId = "") ∧
      (jsIncludes msg "secretAccessKey" = true ↔
        (⟨"", "id", "", "bkt", "auto", "", "images/", true, []⟩ :
          R2UploaderSettings).secretAccessKey = "") ∧
      (jsIncludes msg "bucketName" = true ↔
        (⟨"", "id", "", "bkt", "auto", "", "images/", true, []⟩ :
          R2UploaderSettings).bucketName = "") :=
  claim_C2 ⟨"", "id", "", "bkt", "auto", "", "images/", true, []⟩
    ⟨Except.ok ⟨"f.png", "image/png", 3, [1, 2, 3]⟩, Except.ok (), 2024, 99⟩ "f" (Or.inl rfl)

/-- Claim C3, counterexample: `generateFileKey` appends a separator only
when one is absent and never collapses trailing separators, so for the
prefix `images//` the produced key keeps both separators, while a prefix
normalized to end in exactly one separator would give `images/f.png`. -/
theorem claim_C3_counterexample :
    generateFileKey 2022 "images//" "f.png" false = "images//f.png" ∧
    generateFileKeySpec 2022 "images//" "f.png" false = "images/f.png" ∧
    generateFileKey 2022 "images//" "f.png" false ≠
      generateFileKeySpec 2022 "images//" "f.png" false := by
  refine ⟨?_, ?_, ?_⟩ <;> decide

/-- Claim C3, amended: the key is the prefix normalized to end in at least
one separator (a separator is appended only when the prefix does not
already end in one; existing trailing separators are kept), followed by
the four-digit year and a separator when useYear is set, followed by the
filename; the two example equations of the claim hold. -/
theorem claim_C3 (year : Nat) (pathPrefix fileName : String) (useYear : Bool) :
    (∃ np, generateFileKey year pathPrefix fileName useYear =
        np ++ (if useYear then natToString year ++ "/" else "") ++ fileName ∧
      jsEndsWith np "/" = true ∧
      (jsEndsWith pathPrefix "/" = true → np = pathPrefix) ∧
      (jsEndsWith pathPrefix "/" = false → np = pathPrefix ++ "/")) ∧
    generateFileKey 2022 "images" "f.png" false = "images/f.png" ∧
    generateFileKey 2022 "images/" "f.png" true = "images/2022/f.png" := by
  refine ⟨?_, by decide, ?_⟩
  · by_cases h : jsEndsWith pathPrefix "/" = true
    · refine ⟨pathPrefix, ?_, h, fun _ => rfl, fun hc => absurd h (by simp [hc])⟩
      simp [generateFileKey, h]
    · refine ⟨pathPrefix ++ "/", ?_, jsEndsWith_append_self _ _,
        fun hc => absurd hc h, fun _ => rfl⟩
      simp [generateFileKey, h]
  · have h1 : jsEndsWith "images/" "/" = true := by decide
    simp only [generateFileKey, h1, if_true, natToString_2022]
    rfl

/-- Claim C3, witness: the two example keys, via the amended theorem. -/
theorem claim_C3_witness :
    generateFileKey 2022 "images" "f.png" false = "images/f.png" ∧
    generateFileKey 2022 "images/" "f.png" true = "images/2022/f.png" :=
  ⟨(claim_C3 2022 "images" "f.png" false).2.1,
    (claim_C3 2022 "images/" "f.png" true).2.2⟩

/-- Claim C4: `generateUniqueFileName` at epoch-millis `now` returns
`<now>.<seg>` where `seg` is the substring after the last dot of the
original name (the whole name when it has no dot), and calls at distinct
timestamps give distinct names whatever the two input names are. -/
theorem claim_C4 (now : Nat) (name : String) :
    ((∀ c ∈ name.data, c ≠ '.') →
      generateUniqueFileName now name = natToString now ++ "." ++ name) ∧
    (∀ l₁ l₂ : List Char, name.data = l₁ ++ '.' :: l₂ → (∀ c ∈ l₂, c ≠ '.') →
      generateUniqueFileName now name = natToString now ++ "." ++ String.mk l₂) ∧
    (∀ now₂ name₂, now ≠ now₂ →
      generateUniqueFileName now name ≠ generateUniqueFileName now₂ name₂) := by
  refine ⟨?_, ?_, ?_⟩
  · intro h
    rw [generateUniqueFileName, splitOnDot_no_dot h]
    rfl
  · intro l₁ l₂ hdecomp h₂
    rw [generateUniqueFileName, hdecomp, splitOnDot_getLastD_append,
      splitOnDot_no_dot h₂]
    rfl
  · intro now₂ name₂ hne heq
    apply hne
    apply natToString_inj
    apply String.ext
    have hdata := congrArg String.data heq
    rw [generateUniqueFileName, generateUniqueFileName] at hdata
    simp only [String.data_append, List.append_assoc, List.singleton_append] at hdata
    exact (append_dot_inj (natToString now).data (natToString_no_dot now)
      (natToString_no_dot now₂) hdata).1

/-- Claim C4, witness: two concrete timestamps and names through the
theorem, plus the concrete rendering of the example name. -/
theorem claim_C4_witness :
    generateUniqueFileName 0 "photo.jpg" ≠ generateUniqueFileName 1 "photo.jpg" ∧
    generateUniqueFileName 0 "photo.jpg" = natToString 0 ++ "." ++ String.mk ['j', 'p', 'g'] := by
  constructor
  · exact (claim_C4 0 "photo.jpg").2.2 1 "photo.jpg" (by decide)
  · exact (claim_C4 0 "photo.jpg").2.1 ['p', 'h', 'o', 't', 'o'] ['j', 'p', 'g']
      (by decide) (by decide)

/-- Claim C5, counterexample: for the empty active path and the allow-list
containing the empty-string entry, the claimed membership condition holds
(the path equals the listed folder exactly), yet `isInEnabledFolder`
returns false because it rejects the empty path before consulting the
list; so the claimed iff fails at this input. -/
theorem claim_C5_counterexample :
    folderPermitsSpec "" [""] = true ∧ isInEnabledFolder "" [""] = false := by
  decide

/-- Claim C5, amended: for a non-empty allow-list the gate permits iff the
path is non-empty and starts with a listed folder plus separator or equals
a listed folder (the empty path is always rejected); a blocked gate aborts
the drop handler with the precondition notice and zero network calls; an
empty allow-list imposes no folder condition, so every path passes the
folder gate; the two example paths behave as claimed. -/
theorem claim_C5 :
    (∀ filePath folders, folders ≠ [] →
      (isInEnabledFolder filePath folders = true ↔
        filePath ≠ "" ∧ ∃ folder ∈ folders,
          jsStartsWith filePath (folder ++ "/") = true ∨ filePath = folder)) ∧
    (∀ filePath settings, settings.enabledFolders = [] →
      (validateConditions filePath settings).1 = hasRequiredSettings settings) ∧
    (∀ settings activeFilePath year now cursor files,
      settings.enabledFolders ≠ [] →
      isInEnabledFolder (getCurrentFilePath activeFilePath) settings.enabledFolders = false →
      handleDrop settings true activeFilePath year now cursor files =
        ⟨[], ["Current folder is not enabled for uploads"], 0⟩) ∧
    (isInEnabledFolder "docs/notes/a.md" ["docs"] = true ∧
      isInEnabledFolder "other/a.md" ["docs"] = false) := by
  refine ⟨?_, ?_, ?_, by decide⟩
  · intro filePath folders hfold
    by_cases hp : filePath = ""
    · simp [isInEnabledFolder, hp]
    · rw [isInEnabledFolder, if_neg hp,
        if_neg (by simp [List.length_eq_zero, hfold])]
      simp [List.any_eq_true, hp]
  · intro filePath settings hempty
    rw [validateConditions, if_neg (by simp [hempty])]
    by_cases hr : hasRequiredSettings settings = false
    · rw [if_pos hr, hr]
    · rw [if_neg hr]
      simp only [Bool.not_eq_false] at hr
      rw [hr]
  · intro settings activeFilePath year now cursor files hfold hgate
    have hvc : validateConditions (getCurrentFilePath activeFilePath) settings =
        (false, ["Current folder is not enabled for uploads"]) := by
      rw [validateConditions, if_pos ⟨List.length_pos.mpr hfold, hgate⟩]
    simp [handleDrop, hvc]

/-- Claim C5, witness: the example path is permitted and a blocked path
produces exactly the precondition notice and no network traffic. -/
theorem claim_C5_witness :
    isInEnabledFolder "docs/notes/a.md" ["docs"] = true ∧
    handleDrop ⟨"https://e.com", "a", "s", "bkt", "auto", "", "images/", true, ["docs"]⟩ true
        (some "other/a.md") 2024 1 ⟨0, 0⟩
        [⟨"x.png", "image/png", Except.ok ⟨"x.png", "image/png", 0, []⟩, Except.ok ()⟩] =
      ⟨[], ["Current folder is not enabled for uploads"], 0⟩ := by
  constructor
  · exact (claim_C5.1 "docs/notes/a.md" ["docs"] (by decide)).mpr
      ⟨by decide, "docs", by simp, Or.inl (by decide)⟩
  · exact claim_C5.2.2.1 ⟨"https://e.com", "a", "s", "bkt", "auto", "", "images/", true, ["docs"]⟩
      (some "other/a.md") 2024 1 ⟨0, 0⟩
      [⟨"x.png", "image/png", Except.ok ⟨"x.png", "image/png", 0, []⟩, Except.ok ()⟩]
      (by decide) (by decide)

/-- Claim C6: insertions happen in the fixed input order, the i-th link
is placed at the cursor advanced by the total length of the previous
links (so insertions are consecutive and non-overlapping, each starting
where the previous one ends, on the same line), and a batch of two
succeeding files yields exactly two consecutive links and two success
notices. -/
theorem claim_C6 :
    (∀ cursor links,
      (insertMarkdownLinks cursor links).length = links.length ∧
      (∀ i (h1 : i < (insertMarkdownLinks cursor links).length) (h2 : i < links.length),
        (insertMarkdownLinks cursor links).get ⟨i, h1⟩ =
          ⟨mkMarkdownLink ((links.get ⟨i, h2⟩)).displayName ((links.get ⟨i, h2⟩)).url,
            ⟨cursor.line, cursor.ch + ((links.take i).map linkTextLen).sum⟩⟩) ∧
      (∀ i (h1 : i + 1 < (insertMarkdownLinks cursor links).length)
          (h2 : i + 1 < links.length),
        ((insertMarkdownLinks cursor links).get ⟨i + 1, h1⟩).pos.ch =
          ((insertMarkdownLinks cursor links).get ⟨i, by omega⟩).pos.ch +
            ((insertMarkdownLinks cursor links).get ⟨i, by omega⟩).text.length ∧
        ((insertMarkdownLinks cursor links).get ⟨i + 1, h1⟩).pos.line =
          ((insertMarkdownLinks cursor links).get ⟨i, by omega⟩).pos.line)) ∧
    (∀ settings (f1 f2 : JsFile) cursor year now fi1 fi2,
      settings.endpoint ≠ "" → settings.accessKeyId ≠ "" →
      settings.secretAccessKey ≠ "" → settings.bucketName ≠ "" →
      f1.read = Except.ok fi1 → f2.read = Except.ok fi2 →
      f1.send = Except.ok () → f2.send = Except.ok () →
      processImages settings year now cursor [f1, f2] =
        ([⟨mkMarkdownLink (sanitizeFileName f1.name)
              (createUrl settings (generateFileKey year settings.pathPrefix
                (generateUniqueFileName now f1.name) settings.useYearSubdirectory)), cursor⟩,
          ⟨mkMarkdownLink (sanitizeFileName f2.name)
              (createUrl settings (generateFileKey year settings.pathPrefix
                (generateUniqueFileName now f2.name) settings.useYearSubdirectory)),
            ⟨cursor.line, cursor.ch + (mkMarkdownLink (sanitizeFileName f1.name)
              (createUrl settings (generateFileKey year settings.pathPrefix
                (generateUniqueFileName now f1.name)
                settings.useYearSubdirectory))).length⟩⟩],
         ["Successfully uploaded " ++ sanitizeFileName f1.name,
          "Successfully uploaded " ++ sanitizeFileName f2.name])) := by
  constructor
  · intro cursor links
    refine ⟨insertMarkdownLinks_length links cursor, ?_, ?_⟩
    · intro i h1 h2
      rw [List.get_eq_getElem, List.get_eq_getElem]
      exact insertMarkdownLinks_getElem links cursor i h1 h2
    · intro i h1 h2
      have hi : i < (insertMarkdownLinks cursor links).length := by omega
      have hi2 : i < links.length := by omega
      have e1 := insertMarkdownLinks_getElem links cursor (i + 1) h1 h2
      have e0 := insertMarkdownLinks_getElem links cursor i hi hi2
      simp only [List.get_eq_getElem]
      rw [e1, e0]
      refine ⟨?_, rfl⟩
      simp only []
      rw [List.map_take, List.map_take,
        List.sum_take_succ _ i (by rw [List.length_map]; exact hi2),
        List.getElem_map]
      have hlen : (mkMarkdownLink ((links.get ⟨i, hi2⟩)).displayName
          ((links.get ⟨i, hi2⟩)).url).length = linkTextLen (links.get ⟨i, hi2⟩) := rfl
      simp only [List.get_eq_getElem] at hlen
      rw [hlen]
      omega
  · intro settings f1 f2 cursor year now fi1 fi2 h1 h2 h3 h4 hr1 hr2 hs1 hs2
    have hmf := missingFields_eq_nil h1 h2 h3 h4
    have hu1 := @uploadFile_success settings ⟨f1.read, f1.send, year, now⟩
      (generateUniqueFileName now f1.name) hmf fi1 hr1 hs1
    have hu2 := @uploadFile_success settings ⟨f2.read, f2.send, year, now⟩
      (generateUniqueFileName now f2.name) hmf fi2 hr2 hs2
    simp [processImages, imageProcessResults, processFiles, processFilesFull,
      hu1, hu2, successLinks, isSuccess, showProcessResults, insertMarkdownLinks]

/-- Claim C6, witness: a concrete two-file batch through the theorem. -/
theorem claim_C6_witness :
    processImages ⟨"https://e.com", "a", "s", "bkt", "auto", "", "images/", false, []⟩ 2024 5
        ⟨3, 7⟩
        [⟨"a.png", "image/png", Except.ok ⟨"a.png", "image/png", 1, [1]⟩, Except.ok ()⟩,
         ⟨"b.png", "image/png", Except.ok ⟨"b.png", "image/png", 1, [2]⟩, Except.ok ()⟩] =
      ([⟨mkMarkdownLink (sanitizeFileName "a.png")
            (createUrl ⟨"https://e.com", "a", "s", "bkt", "auto", "", "images/", false, []⟩
              (generateFileKey 2024 "images/" (generateUniqueFileName 5 "a.png") false)), ⟨3, 7⟩⟩,
        ⟨mkMarkdownLink (sanitizeFileName "b.png")
            (createUrl ⟨"https://e.com", "a", "s", "bkt", "auto", "", "images/", false, []⟩
              (generateFileKey 2024 "images/" (generateUniqueFileName 5 "b.png") false)),
          ⟨3, 7 + (mkMarkdownLink (sanitizeFileName "a.png")
            (createUrl ⟨"https://e.com", "a", "s", "bkt", "auto", "", "images/", false, []⟩
              (generateFileKey 2024 "images/" (generateUniqueFileName 5 "a.png")
                false))).length⟩⟩],
       ["Successfully uploaded " ++ sanitizeFileName "a.png",
        "Successfully uploaded " ++ sanitizeFileName "b.png"]) :=
  claim_C6.2 ⟨"https://e.com", "a", "s", "bkt", "auto", "", "images/", false, []⟩
    ⟨"a.png", "image/png", Except.ok ⟨"a.png", "image/png", 1, [1]⟩, Except.ok ()⟩
    ⟨"b.png", "image/png", Except.ok ⟨"b.png", "image/png", 1, [2]⟩, Except.ok ()⟩
    ⟨3, 7⟩ 2024 5 ⟨"a.png", "image/png", 1, [1]⟩ ⟨"b.png", "image/png", 1, [2]⟩
    (by decide) (by decide) (by decide) (by decide) rfl rfl rfl rfl

/-- Claim C7: the failure message is the dedicated CORS remediation
message exactly when the thrown error is a TypeError whose message
contains the fetch-failure text; any other error is wrapped as
`Upload failed: <cause>`, which contains the original cause text; the
CORS message carries the remediation instruction; and a transport throw
inside `uploadFile` surfaces through `getErrorMessage`. -/
theorem claim_C7 (e : JsError) :
    (isCorsSignature e = true → getErrorMessage e = corsErrorMessage) ∧
    (isCorsSignature e = false →
      getErrorMessage e = "Upload failed: " ++ jsErrorToString e ∧
      jsIncludes (getErrorMessage e) (jsErrorToString e) = true) ∧
    (isCorsSignature e = true ↔
      ∃ m, e = JsError.typeError m ∧ jsIncludes m "Failed to fetch" = true) ∧
    jsIncludes corsErrorMessage "CORS policy" = true ∧
    (∀ settings env fileName fi, missingFields settings = [] →
      env.read = Except.ok fi → env.send = Except.error e →
      (uploadFile settings env fileName).1 = Result.failure (getErrorMessage e)) := by
  refine ⟨?_, ?_, ?_, by decide, ?_⟩
  · intro h
    rw [getErrorMessage, if_pos h]
  · intro h
    rw [getErrorMessage, if_neg (by simp [h])]
    exact ⟨rfl, jsIncludes_append_right _ _⟩
  · cases e with
    | typeError m => simp [isCorsSignature]
    | other s => simp [isCorsSignature]
  · intro settings env fileName fi hmf hr hs
    rw [uploadFile_send_failure fileName hmf hr hs]

/-- Claim C7, witness: the CORS-signature error and a generic error. -/
theorem claim_C7_witness :
    getErrorMessage (JsError.typeError "Failed to fetch") = corsErrorMessage ∧
    getErrorMessage (JsError.other "boom") = "Upload failed: boom" := by
  constructor
  · exact (claim_C7 (JsError.typeError "Failed to fetch")).1 (by decide)
  · have h := ((claim_C7 (JsError.other "boom")).2.1 (by decide)).1
    simpa using h

/-- Claim C8, counterexample: `sanitize-filename` leaves `]` and `(`
untouched, so the name `a](x.png` is unchanged by sanitization and the
markdown image tag built from it parses back with alt text `a`, not the
display name — the inserted link text does break the generated markdown
image syntax. -/
theorem claim_C8_counterexample :
    sanitizeFileName "a](x.png" = "a](x.png" ∧
    parseAltText (mkMarkdownLink (sanitizeFileName "a](x.png") "https://e.com/u.png") =
      some "a" ∧
    some "a" ≠ some (sanitizeFileName "a](x.png") := by
  refine ⟨?_, ?_, ?_⟩ <;> decide

/-- Claim C8, amended: every display name inserted by the pipeline is the
sanitized original name, sanitization replaces exactly the
filesystem-disallowed characters by `_` position by position, and the
generated markdown image tag parses back to the display name only for
names whose sanitized form does not contain the `](` sequence —
sanitization does not protect against `]` followed by `(`. -/
theorem claim_C8 :
    (∀ settings year now files link,
      link ∈ successLinks (imageProcessResults settings year now files) →
      ∃ f ∈ files, link.displayName = sanitizeFileName f.name) ∧
    (∀ name : String, (sanitizeFileName name).data.length = name.data.length ∧
      ∀ i (h1 : i < (sanitizeFileName name).data.length) (h2 : i < name.data.length),
        (sanitizeFileName name).data.get ⟨i, h1⟩ =
          if isFsIllegalChar (name.data.get ⟨i, h2⟩) then '_'
          else name.data.get ⟨i, h2⟩) ∧
    (∀ name url, hasCloseOpen (sanitizeFileName name).data = false →
      parseAltText (mkMarkdownLink (sanitizeFileName name) url) =
        some (sanitizeFileName name)) := by
  refine ⟨?_, ?_, ?_⟩
  · intro settings year now files link hlink
    rw [successLinks, List.mem_map] at hlink
    obtain ⟨pr, hpr, hlinkeq⟩ := hlink
    have hprs := (List.mem_filter.mp hpr).1
    rw [imageProcessResults] at hprs
    obtain ⟨f, hf, hname⟩ := mem_zipWith_name hprs
    refine ⟨f, hf, ?_⟩
    rw [← hlinkeq]
    show sanitizeFileName pr.originalName = sanitizeFileName f.name
    rw [hname]
  · intro name
    refine ⟨by simp [sanitizeFileName], ?_⟩
    intro i h1 h2
    simp only [sanitizeFileName, List.get_eq_getElem, List.getElem_map]
  · intro name url h
    have hdata : (mkMarkdownLink (sanitizeFileName name) url).data =
        '!' :: '[' :: ((sanitizeFileName name).data ++
          ']' :: '(' :: (url.data ++ [')'])) := by
      simp [mkMarkdownLink, String.data_append, List.append_assoc]
    rw [parseAltText, hdata]
    show some (String.mk (takeUntilCloseOpen ((sanitizeFileName name).data ++
      ']' :: '(' :: (url.data ++ [')'])))) = some (sanitizeFileName name)
    rw [takeUntilCloseOpen_append _ _ h]

/-- Claim C8, witness: a clean name round-trips through the markdown tag. -/
theorem claim_C8_witness :
    parseAltText (mkMarkdownLink (sanitizeFileName "photo.jpg") "https://e.com/u.png") =
      some (sanitizeFileName "photo.jpg") :=
  claim_C8.2.2 "photo.jpg" "https://e.com/u.png" (by decide)

/-- Claim C9: `uploadFile` is a total function into explicit results —
each internal failure (settings validation, file read, transport send) is
converted into a failure value with the corresponding message, and the
all-good path returns success; in a batch, the i-th outcome is exactly
the upload of the i-th file, so one file's failure cannot abort or alter
a sibling's processing. -/
theorem claim_C9 :
    (∀ settings env fileName,
      (missingFields settings ≠ [] →
        uploadFile settings env fileName =
          (.failure ("Missing required settings: " ++
            jsJoin ", " (missingFields settings)), 0)) ∧
      (∀ e, missingFields settings = [] → env.read = Except.error e →
        uploadFile settings env fileName =
          (.failure ("Failed to read file: " ++ jsErrorToString e), 0)) ∧
      (∀ e fi, missingFields settings = [] → env.read = Except.ok fi →
        env.send = Except.error e →
        uploadFile settings env fileName = (.failure (getErrorMessage e), 1)) ∧
      (∀ fi, missingFields settings = [] → env.read = Except.ok fi →
        env.send = Except.ok () →
        uploadFile settings env fileName =
          (.success ⟨createUrl settings (generateFileKey env.year settings.pathPrefix
            fileName settings.useYearSubdirectory), fileName, env.now⟩, 1))) ∧
    (∀ settings year now files,
      (processFiles settings year now files).length = files.length ∧
      ∀ i (h1 : i < (processFiles settings year now files).length)
        (h2 : i < files.length),
        (processFiles settings year now files).get ⟨i, h1⟩ =
          (uploadFile settings
            ⟨(files.get ⟨i, h2⟩).read, (files.get ⟨i, h2⟩).send, year, now⟩
            (generateUniqueFileName now (files.get ⟨i, h2⟩).name)).1) := by
  constructor
  · intro settings env fileName
    refine ⟨?_, ?_, ?_, ?_⟩
    · intro h
      exact uploadFile_validation_failure env fileName h
    · intro e hmf hr
      exact uploadFile_read_failure fileName hmf hr
    · intro e fi hmf hr hs
      exact uploadFile_send_failure fileName hmf hr hs
    · intro fi hmf hr hs
      exact uploadFile_success fileName hmf hr hs
  · intro settings year now files
    refine ⟨by simp [processFiles, processFilesFull], ?_⟩
    intro i h1 h2
    simp only [processFiles, processFilesFull, List.get_eq_getElem,
      List.getElem_map]

/-- Claim C9, witness: a batch where the first file's transport fails and
the second succeeds; the second outcome is its own upload. -/
theorem claim_C9_witness :
    uploadFile ⟨"", "a", "s", "b", "auto", "", "images/", true, []⟩
        ⟨Except.ok ⟨"f", "image/png", 0, []⟩, Except.ok (), 2024, 5⟩ "f" =
      (.failure ("Missing required settings: " ++ jsJoin ", "
        (missingFields ⟨"", "a", "s", "b", "auto", "", "images/", true, []⟩)), 0) ∧
    (processFiles ⟨"https://e.com", "a", "s", "b", "auto", "", "images/", true, []⟩ 2024 5
      [⟨"bad.png", "image/png", Except.ok ⟨"bad.png", "image/png", 0, []⟩,
        Except.error (JsError.other "boom")⟩,
       ⟨"good.png", "image/png", Except.ok ⟨"good.png", "image/png", 0, []⟩,
        Except.ok ()⟩]).length = 2 := by
  constructor
  · exact (claim_C9.1 ⟨"", "a", "s", "b", "auto", "", "images/", true, []⟩
      ⟨Except.ok ⟨"f", "image/png", 0, []⟩, Except.ok (), 2024, 5⟩ "f").1 (by decide)
  · exact (claim_C9.2 ⟨"https://e.com", "a", "s", "b", "auto", "", "images/", true, []⟩ 2024 5
      [⟨"bad.png", "image/png", Except.ok ⟨"bad.png", "image/png", 0, []⟩,
        Except.error (JsError.other "boom")⟩,
       ⟨"good.png", "image/png", Except.ok ⟨"good.png", "image/png", 0, []⟩,
        Except.ok ()⟩]).1

/-- Claim C10: the allow-list entry stored for the vault root is the empty
string, and that entry matches no file: for every non-empty path not
starting with `/`, neither the `startsWith` branch nor the equality
branch holds, so an allow-list holding only the root entry blocks the
upload with the precondition notice. -/
theorem claim_C10 (p : String) (hne : p ≠ "") (hs : jsStartsWith p "/" = false) :
    onChooseItemPath "/" = "" ∧
    jsStartsWith p (onChooseItemPath "/" ++ "/") = false ∧
    (p = onChooseItemPath "/" ↔ False) ∧
    isInEnabledFolder p [onChooseItemPath "/"] = false ∧
    (∀ settings, settings.enabledFolders = [onChooseItemPath "/"] →
      validateConditions p settings =
        (false, ["Current folder is not enabled for uploads"])) := by
  have h0 : onChooseItemPath "/" = "" := by decide
  have hnil : ("" : String) ++ "/" = "/" := by decide
  have hgate : isInEnabledFolder p [""] = false := by
    rw [isInEnabledFolder, if_neg hne, if_neg (by decide)]
    simp [hnil, hs, hne]
  refine ⟨h0, ?_, ?_, ?_, ?_⟩
  · rw [h0, hnil]
    exact hs
  · rw [h0]
    simp [hne]
  · rw [h0]
    exact hgate
  · intro settings hset
    have hcond : settings.enabledFolders.length > 0 ∧
        isInEnabledFolder p settings.enabledFolders = false := by
      rw [hset, h0]
      exact ⟨by simp, hgate⟩
    rw [validateConditions, if_pos hcond]

/-- Claim C10, witness: a concrete path blocked by the root-only list. -/
theorem claim_C10_witness :
    isInEnabledFolder "docs/a.md" [onChooseItemPath "/"] = false :=
  (claim_C10 "docs/a.md" (by decide) (by decide)).2.2.2.1

end R2
